import Mathlib

/-!
# Verification of the Namada ledger node orchestration layer

Shallow embedding of `apps/src/lib/node/ledger/mod.rs` (the Shell request
dispatcher, `load_proposals`, `run_abci` lane policies, `run_aux` shutdown
logging, broadcaster/oracle task selection) and of the user validity
predicate `wasm/vps/vp_user/src/lib.rs`.

Machine integers are modelled as `Nat`/`Int`; fallible or panicking code
returns `Option`; storage keys are modelled as strings of characters
(`List Char`) because the prefix-iteration semantics of the storage
collaborator is defined on raw key strings.
-/

namespace Namada

/-! ## Decimal rendering and parsing of epoch / proposal-id numbers

Epochs and proposal ids appear inside storage-key strings in decimal.
`natToChars` renders a `Nat` in base 10; `charsToNat?` parses one back
(the model of `u64::from_str` on a key segment, overflow ignored). -/

/-- The decimal digit character for `n < 10`. -/
def digitChar (n : Nat) : Char := Char.ofNat (48 + n)

/-- Decimal rendering of a natural number (model of `u64`'s `Display`). -/
def natToChars (n : Nat) : List Char :=
  if _h : n < 10 then [digitChar n]
  else natToChars (n / 10) ++ [digitChar (n % 10)]
  decreasing_by
    exact Nat.div_lt_self (Nat.pos_of_ne_zero (by omega)) (by omega)

/-- Is `c` a decimal digit? -/
def isDigit (c : Char) : Bool := 48 ≤ c.toNat && c.toNat ≤ 57

/-- Numeric value of a digit character. -/
def digitVal (c : Char) : Nat := c.toNat - 48

/-- Parse a decimal segment (model of `u64::from_str` on a key segment):
fails on the empty string and on any non-digit character. -/
def charsToNat? (l : List Char) : Option Nat :=
  if !l.isEmpty && l.all isDigit then
    some (l.foldl (fun a c => a * 10 + digitVal c) 0)
  else none

theorem digitChar_isDigit {n : Nat} (h : n < 10) : isDigit (digitChar n) = true := by
  interval_cases n <;> decide

theorem digitVal_digitChar {n : Nat} (h : n < 10) : digitVal (digitChar n) = n := by
  interval_cases n <;> decide

theorem digitChar_ne_slash {n : Nat} (h : n < 10) : digitChar n ≠ '/' := by
  interval_cases n <;> decide

theorem natToChars_ne_nil (n : Nat) : natToChars n ≠ [] := by
  unfold natToChars
  split <;> simp

theorem natToChars_all_digit (n : Nat) : (natToChars n).all isDigit = true := by
  induction n using Nat.strong_induction_on with
  | _ n ih =>
    unfold natToChars
    split
    · next h => simp [digitChar_isDigit h]
    · next h =>
      have h1 := ih (n / 10) (Nat.div_lt_self (by omega) (by omega))
      have h2 := digitChar_isDigit (Nat.mod_lt n (show 0 < 10 by omega))
      simp only [List.all_append, Bool.and_eq_true]
      exact ⟨h1, by simp [h2]⟩

theorem slash_not_mem_natToChars (n : Nat) : '/' ∉ natToChars n := by
  intro hmem
  have hall := natToChars_all_digit n
  rw [List.all_eq_true] at hall
  have := hall _ hmem
  simp [isDigit] at this

/-- Folding the decimal-accumulation step from an arbitrary accumulator. -/
theorem foldl_decimal_shift (l : List Char) (a : Nat) :
    l.foldl (fun a c => a * 10 + digitVal c) a =
      a * 10 ^ l.length + l.foldl (fun a c => a * 10 + digitVal c) 0 := by
  induction l generalizing a with
  | nil => simp
  | cons c l ih =>
    simp only [List.foldl_cons, List.length_cons, Nat.zero_mul, Nat.zero_add]
    rw [ih (a * 10 + digitVal c), ih (digitVal c)]
    ring

theorem foldl_decimal_natToChars (n : Nat) :
    (natToChars n).foldl (fun a c => a * 10 + digitVal c) 0 = n := by
  induction n using Nat.strong_induction_on with
  | _ n ih =>
    unfold natToChars
    split
    · next h => simp [digitVal_digitChar h]
    · next h =>
      rw [List.foldl_append]
      have hd : n / 10 < n := Nat.div_lt_self (by omega) (by omega)
      rw [ih (n / 10) hd]
      simp only [List.foldl_cons, List.foldl_nil]
      rw [digitVal_digitChar (Nat.mod_lt n (by omega))]
      omega

/-- Round trip: rendering then parsing a number gives it back. -/
theorem charsToNat?_natToChars (n : Nat) : charsToNat? (natToChars n) = some n := by
  unfold charsToNat?
  rw [if_pos, foldl_decimal_natToChars]
  have h1 := natToChars_ne_nil n
  have h2 := natToChars_all_digit n
  simp [List.isEmpty_iff, h1, h2]

/-! ## Storage keys

A raw storage key is a string of characters; a parsed `Key` is its list of
`/`-separated segments.  Modelled from the spec: key-prefix iteration is an
"ordered key-prefix iteration" on raw key strings (§6), and governance
commit-proposal keys hold the commit epoch and the proposal id as decimal
segments under a fixed governance prefix (§3). -/

/-- Split a character string at a separator character. -/
def splitOnChar (c : Char) : List Char → List (List Char)
  | [] => [[]]
  | x :: xs =>
    if x = c then [] :: splitOnChar c xs
    else
      match splitOnChar c xs with
      | [] => [[x]]
      | s :: ss => (x :: s) :: ss

theorem splitOnChar_ne_nil (c : Char) (l : List Char) : splitOnChar c l ≠ [] := by
  induction l with
  | nil => simp [splitOnChar]
  | cons x xs ih =>
    simp only [splitOnChar]
    split
    · simp
    · split
      · simp
      · simp

theorem splitOnChar_of_not_mem {c : Char} {l : List Char} (h : c ∉ l) :
    splitOnChar c l = [l] := by
  induction l with
  | nil => rfl
  | cons x xs ih =>
    simp only [List.mem_cons, not_or] at h
    simp only [splitOnChar]
    rw [if_neg (fun hx => h.1 hx.symm), ih h.2]

theorem splitOnChar_append {c : Char} {l : List Char} (rest : List Char) (h : c ∉ l) :
    splitOnChar c (l ++ c :: rest) = l :: splitOnChar c rest := by
  induction l with
  | nil => simp [splitOnChar]
  | cons x xs ih =>
    simp only [List.mem_cons, not_or] at h
    have hne : ¬ x = c := fun hx => h.1 hx.symm
    simp only [List.cons_append, splitOnChar, if_neg hne, List.append_eq, ih h.2]

/-- Model of `Key::from_str` (`namada::types::storage::Key` parsing, outside
the provided sources).  Modelled from the spec: a key string parses into its
`/`-separated segments, and parsing fails iff some segment is empty. -/
def keyFromStr (s : List Char) : Option (List (List Char)) :=
  let parts := splitOnChar '/' s
  if parts.all (fun p => !p.isEmpty) then some parts else none

/-- Governance address segment of commit-proposal keys (placeholder spelling;
only its exactness matters, not its content). -/
def govAddrSeg : List Char := ['#', 'g', 'o', 'v']

/-- The `commiting_proposal` path segment. -/
def commitingSeg : List Char :=
  ['c', 'o', 'm', 'm', 'i', 't', 'i', 'n', 'g', '_',
   'p', 'r', 'o', 'p', 'o', 's', 'a', 'l']

/-- Model of `gov_storage::get_commiting_proposals_prefix(epoch)` rendered as
a raw key string.  Modelled from the spec: the scan prefix ends in the decimal
epoch with no trailing separator, which is what makes a scan for epoch 1 also
match keys of epochs 11 and 110 (§3). -/
def commitingProposalsPfx (epoch : Nat) : List Char :=
  govAddrSeg ++ '/' :: commitingSeg ++ '/' :: natToChars epoch

/-- The raw key string of a stored commit-proposal record for `(epoch, id)`. -/
def mkCommitProposalKey (epoch id : Nat) : List Char :=
  commitingProposalsPfx epoch ++ '/' :: natToChars id

/-- Model of `gov_storage::get_commit_proposal_epoch`.  Modelled from the
spec: the commit epoch is the decimal segment following the
`commiting_proposal` segment of a well-shaped commit-proposal key. -/
def getCommitProposalEpoch (k : List (List Char)) : Option Nat :=
  match k with
  | [g, c, e, _] =>
    if g = govAddrSeg ∧ c = commitingSeg then charsToNat? e else none
  | _ => none

/-- Model of `gov_storage::get_commit_proposal_id`.  Modelled from the spec:
the proposal id is the final decimal segment of a commit-proposal key. -/
def getCommitProposalId (k : List (List Char)) : Option Nat :=
  match k with
  | [g, c, _, i] =>
    if g = govAddrSeg ∧ c = commitingSeg then charsToNat? i else none
  | _ => none

/-- Model of `storage.iter_prefix`: yields (in storage order) exactly the
stored keys of which the given raw string is a prefix. -/
def iterMatching (storage : List (List Char)) (pfx : List Char) : List (List Char) :=
  storage.filter (fun k => List.isPrefixOf pfx k)

/-- Boolean prefix test agrees with the prefix relation. -/
theorem isPrefixOf_eq_true_iff (l₁ l₂ : List Char) : l₁.isPrefixOf l₂ = true ↔ l₁ <+: l₂ :=
  List.isPrefixOf_iff_prefix

theorem slash_not_mem_govAddrSeg : '/' ∉ govAddrSeg := by decide

theorem slash_not_mem_commitingSeg : '/' ∉ commitingSeg := by decide

/-- Parsing the raw string of a well-formed commit-proposal key recovers its
four segments. -/
theorem keyFromStr_mkCommitProposalKey (e i : Nat) :
    keyFromStr (mkCommitProposalKey e i) =
      some [govAddrSeg, commitingSeg, natToChars e, natToChars i] := by
  have hkey : mkCommitProposalKey e i =
      govAddrSeg ++ '/' :: (commitingSeg ++ '/' :: (natToChars e ++ '/' :: natToChars i)) := by
    simp [mkCommitProposalKey, commitingProposalsPfx]
  have hsplit : splitOnChar '/' (mkCommitProposalKey e i) =
      [govAddrSeg, commitingSeg, natToChars e, natToChars i] := by
    rw [hkey, splitOnChar_append _ slash_not_mem_govAddrSeg,
      splitOnChar_append _ slash_not_mem_commitingSeg,
      splitOnChar_append _ (slash_not_mem_natToChars e),
      splitOnChar_of_not_mem (slash_not_mem_natToChars i)]
  unfold keyFromStr
  rw [hsplit]
  rw [if_pos]
  simp [List.isEmpty_iff, govAddrSeg, commitingSeg, natToChars_ne_nil]

theorem getCommitProposalEpoch_mkKey (e i : Nat) :
    getCommitProposalEpoch [govAddrSeg, commitingSeg, natToChars e, natToChars i] =
      some e := by
  simp [getCommitProposalEpoch, charsToNat?_natToChars]

theorem getCommitProposalId_mkKey (e i : Nat) :
    getCommitProposalId [govAddrSeg, commitingSeg, natToChars e, natToChars i] =
      some i := by
  simp [getCommitProposalId, charsToNat?_natToChars]

/-- The scan prefix for epoch `e` is a prefix of the raw key of every record
stored at epoch `e`. -/
theorem pfx_prefix_own_key (e i : Nat) :
    commitingProposalsPfx e <+: mkCommitProposalKey e i := by
  unfold mkCommitProposalKey
  exact List.prefix_append _ _

/-- Decimal false positive: whenever the decimal rendering of the scanned
epoch `E` is a character-prefix of the rendering of a record's epoch `e`,
the scan prefix is a prefix of that record's raw key (so prefix iteration
yields the key even though `e` may differ from `E`). -/
theorem pfx_le_key_of_digit_pfx {E e : Nat} (i : Nat)
    (h : natToChars E <+: natToChars e) :
    commitingProposalsPfx E <+: mkCommitProposalKey e i := by
  have base : natToChars E <+: natToChars e ++ '/' :: natToChars i :=
    h.trans (List.prefix_append _ _)
  have s1 : '/' :: natToChars E <+: '/' :: (natToChars e ++ '/' :: natToChars i) := by
    rw [List.cons_prefix_cons]; exact ⟨rfl, base⟩
  have s2 : commitingSeg ++ '/' :: natToChars E <+:
      commitingSeg ++ '/' :: (natToChars e ++ '/' :: natToChars i) :=
    (List.prefix_append_right_inj _).mpr s1
  have s3 : '/' :: (commitingSeg ++ '/' :: natToChars E) <+:
      '/' :: (commitingSeg ++ '/' :: (natToChars e ++ '/' :: natToChars i)) := by
    rw [List.cons_prefix_cons]; exact ⟨rfl, s2⟩
  have s4 : govAddrSeg ++ '/' :: (commitingSeg ++ '/' :: natToChars E) <+:
      govAddrSeg ++ '/' :: (commitingSeg ++ '/' :: (natToChars e ++ '/' :: natToChars i)) :=
    (List.prefix_append_right_inj _).mpr s3
  simpa [mkCommitProposalKey, commitingProposalsPfx, List.append_assoc] using s4

/-! ## Shell state and `load_proposals`

`Shell` carries the chain-state fields that `mod.rs` touches: the last
committed epoch, the backing store (as raw key strings), and the in-memory
pending proposal-id set (`proposal_data : HashSet<u64>`).  The `log` field
is ghost instrumentation: every shell sub-operation appends a tag, so
ordering claims ("load-then-apply, never interleaved") are observable, as
§8 of the spec prescribes ("observable via instrumentation order"). -/

/-- Mempool validation path selector (`shell::MempoolTxType`). -/
inductive MempoolTxType where
  | NewTransaction
  | RecheckTransaction
deriving DecidableEq, Repr

/-- Ghost instrumentation tags, one per shell sub-operation invoked by the
dispatcher. -/
inductive Phase where
  | loadProposals
  | initChain
  | info
  | query
  | prepareProposal
  | verifyHeader
  | processProposal
  | revertProposal
  | finalizeBlock
  | commit
  | checkTx (ty : MempoolTxType)
deriving DecidableEq, Repr

/-- The shell's chain state (the fields of `Shell` that `mod.rs` reads or
writes), plus the ghost instrumentation log. -/
structure Shell where
  lastEpoch : Nat
  storage : List (List Char)
  proposalData : Finset Nat
  log : List Phase
deriving DecidableEq

/-- The iteration body of `Shell::load_proposals`, over the keys yielded by
the prefix scan.  `none` models a panic: `Key::from_str(..).expect(..)` on an
unparsable key, or `.unwrap()` on `get_commit_proposal_epoch` returning
`None`.  A key whose parsed epoch differs from `last_epoch` is skipped
(`continue`); otherwise the parsed id, if any, is inserted. -/
def loadAux (E : Nat) : List (List Char) → Finset Nat → Option (Finset Nat)
  | [], acc => some acc
  | k :: ks, acc =>
    match keyFromStr k with
    | none => none
    | some key =>
      match getCommitProposalEpoch key with
      | none => none
      | some e =>
        if e ≠ E then loadAux E ks acc
        else
          match getCommitProposalId key with
          | some i => loadAux E ks (insert i acc)
          | none => loadAux E ks acc

/-- `Shell::load_proposals`: iterate the commit-proposal prefix of the last
committed epoch and collect matching proposal ids into `proposal_data`.
`none` models a panic inside the loop. -/
def loadProposals (s : Shell) : Option Shell :=
  (loadAux s.lastEpoch
      (iterMatching s.storage (commitingProposalsPfx s.lastEpoch))
      s.proposalData).map
    (fun pd => { s with proposalData := pd, log := s.log ++ [Phase.loadProposals] })

/-- Over a list of well-formed commit-proposal keys, the loop never panics
and collects exactly the ids recorded at the scanned epoch. -/
theorem loadAux_records (E : Nat) (rs : List (Nat × Nat)) (acc : Finset Nat) :
    ∃ pd, loadAux E (rs.map fun r => mkCommitProposalKey r.1 r.2) acc = some pd ∧
      ∀ j, j ∈ pd ↔ j ∈ acc ∨ (E, j) ∈ rs := by
  induction rs generalizing acc with
  | nil => exact ⟨acc, rfl, by simp⟩
  | cons r rs ih =>
    obtain ⟨e, i⟩ := r
    simp only [List.map_cons, loadAux, keyFromStr_mkCommitProposalKey,
      getCommitProposalEpoch_mkKey, getCommitProposalId_mkKey]
    by_cases he : e = E
    · subst he
      obtain ⟨pd, hpd, hmem⟩ := ih (insert i acc)
      refine ⟨pd, by simp [hpd], fun j => ?_⟩
      rw [hmem j]
      simp only [Finset.mem_insert, List.mem_cons, Prod.mk.injEq, true_and]
      tauto
    · obtain ⟨pd, hpd, hmem⟩ := ih acc
      refine ⟨pd, by simp [hpd, he], fun j => ?_⟩
      rw [hmem j]
      simp only [List.mem_cons, Prod.mk.injEq]
      constructor
      · tauto
      · rintro (h | ⟨hE, hj⟩ | h)
        · tauto
        · exact absurd hE.symm he
        · tauto

/-- The prefix scan over a store of commit-proposal records keeps exactly the
records whose raw key extends the scan prefix. -/
theorem iterMatching_records (E : Nat) (rs : List (Nat × Nat)) :
    iterMatching (rs.map fun r => mkCommitProposalKey r.1 r.2)
        (commitingProposalsPfx E) =
      ((rs.filter fun r =>
          List.isPrefixOf (commitingProposalsPfx E) (mkCommitProposalKey r.1 r.2)).map
        fun r => mkCommitProposalKey r.1 r.2) := by
  unfold iterMatching
  rw [List.filter_map]
  rfl

/-- C1: with the chain's last committed epoch set to `E` and the store
holding the commit-proposal records `records` (pairs of commit epoch and
proposal id), `load_proposals` completes without panicking and inserts into
`proposal_data` exactly the ids of records whose commit epoch equals `E`; a
record whose epoch merely shares a decimal prefix with `E` is yielded by the
prefix iteration (third conjunct) yet is not inserted unless its epoch is
exactly `E` (the iff of the second conjunct). -/
theorem load_proposals_exact_epoch_c1 (E : Nat) (records : List (Nat × Nat))
    (init : Finset Nat) (l0 : List Phase) :
    ∃ s', loadProposals
        ⟨E, records.map (fun r => mkCommitProposalKey r.1 r.2), init, l0⟩ = some s' ∧
      (∀ j, j ∈ s'.proposalData ↔ j ∈ init ∨ (E, j) ∈ records) ∧
      (∀ r ∈ records, natToChars E <+: natToChars r.1 →
        mkCommitProposalKey r.1 r.2 ∈
          iterMatching (records.map (fun r => mkCommitProposalKey r.1 r.2))
            (commitingProposalsPfx E)) := by
  unfold loadProposals
  simp only [iterMatching_records]
  obtain ⟨pd, hpd, hmem⟩ := loadAux_records E
    (records.filter fun r =>
      List.isPrefixOf (commitingProposalsPfx E) (mkCommitProposalKey r.1 r.2)) init
  refine ⟨_, by rw [hpd]; rfl, fun j => ?_, fun r hr hdig => ?_⟩
  · rw [hmem j]
    have hfilter : (E, j) ∈ (records.filter fun r =>
        List.isPrefixOf (commitingProposalsPfx E) (mkCommitProposalKey r.1 r.2)) ↔
        (E, j) ∈ records := by
      rw [List.mem_filter]
      have hp : List.isPrefixOf (commitingProposalsPfx E)
          (mkCommitProposalKey E j) = true :=
        (isPrefixOf_eq_true_iff _ _).mpr (pfx_prefix_own_key E j)
      simp [hp]
    rw [hfilter]
  · exact List.mem_map.mpr ⟨r, List.mem_filter.mpr
      ⟨hr, (isPrefixOf_eq_true_iff _ _).mpr (pfx_le_key_of_digit_pfx r.2 hdig)⟩, rfl⟩

theorem load_proposals_exact_epoch_c1_witness :
    ∃ s', loadProposals
        ⟨1, [mkCommitProposalKey 1 7, mkCommitProposalKey 11 8,
             mkCommitProposalKey 110 9], ∅, []⟩ = some s' ∧
      7 ∈ s'.proposalData ∧ 8 ∉ s'.proposalData ∧ 9 ∉ s'.proposalData := by
  obtain ⟨s', hs, hmem, hiter⟩ :=
    load_proposals_exact_epoch_c1 1 [(1, 7), (11, 8), (110, 9)] ∅ []
  refine ⟨s', hs, (hmem 7).mpr (Or.inr (by decide)), fun h8 => ?_, fun h9 => ?_⟩
  · rcases (hmem 8).mp h8 with h | h
    · exact absurd h (by decide)
    · exact absurd h (by decide)
  · rcases (hmem 9).mp h9 with h | h
    · exact absurd h (by decide)
    · exact absurd h (by decide)

/-- The loop completes iff every scanned key parses and yields an epoch. -/
theorem loadAux_isSome_iff (E : Nat) (ks : List (List Char)) (acc : Finset Nat) :
    (loadAux E ks acc).isSome = true ↔
      ∀ k ∈ ks, ∃ key, keyFromStr k = some key ∧
        (getCommitProposalEpoch key).isSome = true := by
  induction ks generalizing acc with
  | nil => simp [loadAux]
  | cons k ks ih =>
    simp only [loadAux]
    cases hk : keyFromStr k with
    | none => simp [hk]
    | some key =>
      cases he : getCommitProposalEpoch key with
      | none => simp [hk, he]
      | some e =>
        have hhead : ∃ key', keyFromStr k = some key' ∧
            (getCommitProposalEpoch key').isSome = true := ⟨key, hk, by simp [he]⟩
        by_cases hne : e = E
        · subst hne
          cases hi : getCommitProposalId key with
          | none => simp [he, hi, hhead, ih]
          | some i => simp [he, hi, hhead, ih]
        · simp [he, hne, hhead, ih]

/-- C9: `load_proposals` is panic-free exactly when every key yielded by the
commit-proposal prefix iteration parses as a storage key and carries a
parsable commit-epoch segment; if any such key fails to parse or yields no
epoch, the function panics (modelled as `none`). -/
theorem load_proposals_panic_c9 (s : Shell) :
    (loadProposals s).isSome = true ↔
      ∀ k ∈ iterMatching s.storage (commitingProposalsPfx s.lastEpoch),
        ∃ key, keyFromStr k = some key ∧
          (getCommitProposalEpoch key).isSome = true := by
  unfold loadProposals
  rw [show ∀ (o : Option (Finset Nat)) (f : Finset Nat → Shell),
        (o.map f).isSome = o.isSome from fun o f => by cases o <;> rfl]
  exact loadAux_isSome_iff _ _ _

theorem load_proposals_panic_c9_witness :
    (loadProposals ⟨1, [mkCommitProposalKey 1 7], ∅, []⟩).isSome = true := by
  apply (load_proposals_panic_c9 ⟨1, [mkCommitProposalKey 1 7], ∅, []⟩).mpr
  intro k hk
  have hp : List.isPrefixOf (commitingProposalsPfx 1) (mkCommitProposalKey 1 7) = true :=
    (isPrefixOf_eq_true_iff _ _).mpr (pfx_prefix_own_key 1 7)
  have hiter : iterMatching [mkCommitProposalKey 1 7] (commitingProposalsPfx 1) =
      [mkCommitProposalKey 1 7] := by simp [iterMatching, hp]
  rw [hiter, List.mem_singleton] at hk
  subst hk
  exact ⟨_, keyFromStr_mkCommitProposalKey 1 7,
    by rw [getCommitProposalEpoch_mkKey]; rfl⟩

/-! ## The request dispatcher `Shell::call`

`Request`/`Response` mirror the shim's request and response enums (the
`abcipp`-feature-gated vote-extension variants are compiled out in the
configuration embedded here).  Opaque request payloads are modelled as
`Nat`; the `CheckTx` payload keeps the raw numeric `type` field it has on
the wire.  `none` models a panic inside `call`. -/

/-- `CheckTx` request payload: raw bytes and the numeric `type` field. -/
structure CheckTxReq where
  tx : List Nat
  ty : Int
deriving DecidableEq

/-- The dispatcher's request enum. -/
inductive Request where
  | initChain (p : Nat)
  | info (p : Nat)
  | query (p : Nat)
  | prepareProposal (p : Nat)
  | verifyHeader (p : Nat)
  | processProposal (p : Nat)
  | revertProposal (p : Nat)
  | finalizeBlock (p : Nat)
  | commit (p : Nat)
  | flush (p : Nat)
  | echo (msg : List Char)
  | checkTx (tx : CheckTxReq)
  | listSnapshots (p : Nat)
  | offerSnapshot (p : Nat)
  | loadSnapshotChunk (p : Nat)
  | applySnapshotChunk (p : Nat)
deriving DecidableEq

/-- The dispatcher's response enum; `0` payloads stand for the structural
default (`Default::default()`) of the corresponding response type. -/
inductive Response where
  | initChain (p : Nat)
  | info (p : Nat)
  | query (p : Nat)
  | prepareProposal (p : Nat)
  | verifyHeader (p : Nat)
  | processProposal (p : Nat)
  | revertProposal (p : Nat)
  | finalizeBlock (p : Nat)
  | commit (p : Nat)
  | flush (p : Nat)
  | echo (msg : List Char)
  | checkTx (p : Nat)
  | listSnapshots (p : Nat)
  | offerSnapshot (p : Nat)
  | loadSnapshotChunk (p : Nat)
  | applySnapshotChunk (p : Nat)
deriving DecidableEq

/-- `shell::Error` (only the shape matters to the dispatcher). -/
inductive ShellError where
  | tendermint (msg : List Char)
  | towerServer (msg : List Char)
deriving DecidableEq

/-- The ABCI `CheckTxType` protobuf enum. -/
inductive CheckTxType where
  | New
  | Recheck
deriving DecidableEq

/-- Model of `CheckTxType::from_i32`.  Modelled from the spec: the ABCI wire
protocol's `CheckTxType` discriminants are `New = 0` and `Recheck = 1`; any
other value is not a recognised variant. -/
def checkTxTypeFromI32 (i : Int) : Option CheckTxType :=
  if i = 0 then some CheckTxType.New
  else if i = 1 then some CheckTxType.Recheck
  else none

/-- Modelled from the spec: the shell handler bodies (`init_chain`, `query`,
`prepare_proposal`, `finalize_block`, `mempool_validate`, ...) live outside
the provided sources; each is modelled as an instrumented no-op that records
its invocation in the ghost log (spec §4.5 behaviour table).  The dispatch
structure around them is embedded from `Shell::call` in `mod.rs`. -/
def runHandler (s : Shell) (p : Phase) : Shell :=
  { s with log := s.log ++ [p] }

/-- `Shell::call`: one response per request, with the `FinalizeBlock` branch
running `load_proposals` before `finalize_block`, the snapshot branches
answering defaults without touching the shell, and the `CheckTx` branch
panicking (`none`) on an unrecognised numeric type. -/
def call (s : Shell) : Request → Option (Shell × Except ShellError Response)
  | Request.initChain _ =>
    some (runHandler s Phase.initChain, Except.ok (Response.initChain 0))
  | Request.info _ =>
    some (runHandler s Phase.info, Except.ok (Response.info 0))
  | Request.query _ =>
    some (runHandler s Phase.query, Except.ok (Response.query 0))
  | Request.prepareProposal _ =>
    some (runHandler s Phase.prepareProposal, Except.ok (Response.prepareProposal 0))
  | Request.verifyHeader _ =>
    some (runHandler s Phase.verifyHeader, Except.ok (Response.verifyHeader 0))
  | Request.processProposal _ =>
    some (runHandler s Phase.processProposal, Except.ok (Response.processProposal 0))
  | Request.revertProposal _ =>
    some (runHandler s Phase.revertProposal, Except.ok (Response.revertProposal 0))
  | Request.finalizeBlock _ =>
    match loadProposals s with
    | none => none
    | some s1 =>
      some (runHandler s1 Phase.finalizeBlock, Except.ok (Response.finalizeBlock 0))
  | Request.commit _ =>
    some (runHandler s Phase.commit, Except.ok (Response.commit 0))
  | Request.flush _ =>
    some (s, Except.ok (Response.flush 0))
  | Request.echo m =>
    some (s, Except.ok (Response.echo m))
  | Request.checkTx tx =>
    match checkTxTypeFromI32 tx.ty with
    | none => none
    | some t =>
      let mt := match t with
        | CheckTxType.New => MempoolTxType.NewTransaction
        | CheckTxType.Recheck => MempoolTxType.RecheckTransaction
      some (runHandler s (Phase.checkTx mt), Except.ok (Response.checkTx 0))
  | Request.listSnapshots _ =>
    some (s, Except.ok (Response.listSnapshots 0))
  | Request.offerSnapshot _ =>
    some (s, Except.ok (Response.offerSnapshot 0))
  | Request.loadSnapshotChunk _ =>
    some (s, Except.ok (Response.loadSnapshotChunk 0))
  | Request.applySnapshotChunk _ =>
    some (s, Except.ok (Response.applySnapshotChunk 0))

/-- On success, `load_proposals` appends exactly its own instrumentation
tag. -/
theorem loadProposals_log {s s1 : Shell} (h : loadProposals s = some s1) :
    s1.log = s.log ++ [Phase.loadProposals] := by
  unfold loadProposals at h
  cases hx : loadAux s.lastEpoch
      (iterMatching s.storage (commitingProposalsPfx s.lastEpoch)) s.proposalData with
  | none => rw [hx] at h; cases h
  | some pd => rw [hx] at h; cases h; rfl

/-- C2: whenever `call` completes on a `FinalizeBlock` request it performs
exactly the phase sequence `load_proposals` followed by `finalize_block`,
with nothing interleaved; on every other request kind the phases performed
never include `load_proposals`. -/
theorem call_load_then_apply_c2 (s : Shell) (r : Request) (s' : Shell)
    (resp : Except ShellError Response) (h : call s r = some (s', resp)) :
    ((∃ p, r = Request.finalizeBlock p) →
      s'.log = s.log ++ [Phase.loadProposals, Phase.finalizeBlock]) ∧
    ((∀ p, r ≠ Request.finalizeBlock p) →
      ∃ t, s'.log = s.log ++ t ∧ Phase.loadProposals ∉ t) := by
  cases r with
  | finalizeBlock p =>
    refine ⟨fun _ => ?_, fun hne => absurd rfl (hne p)⟩
    unfold call at h
    cases hl : loadProposals s with
    | none => rw [hl] at h; cases h
    | some s1 =>
      rw [hl] at h
      cases h
      show (runHandler s1 Phase.finalizeBlock).log = _
      rw [show (runHandler s1 Phase.finalizeBlock).log = s1.log ++ [Phase.finalizeBlock]
        from rfl, loadProposals_log hl, List.append_assoc]
      rfl
  | initChain p =>
    unfold call at h
    cases h
    exact ⟨fun hq => absurd hq (by simp), fun _ => ⟨[Phase.initChain], rfl, by simp⟩⟩
  | info p =>
    unfold call at h
    cases h
    exact ⟨fun hq => absurd hq (by simp), fun _ => ⟨[Phase.info], rfl, by simp⟩⟩
  | query p =>
    unfold call at h
    cases h
    exact ⟨fun hq => absurd hq (by simp), fun _ => ⟨[Phase.query], rfl, by simp⟩⟩
  | prepareProposal p =>
    unfold call at h
    cases h
    exact ⟨fun hq => absurd hq (by simp), fun _ => ⟨[Phase.prepareProposal], rfl, by simp⟩⟩
  | verifyHeader p =>
    unfold call at h
    cases h
    exact ⟨fun hq => absurd hq (by simp), fun _ => ⟨[Phase.verifyHeader], rfl, by simp⟩⟩
  | processProposal p =>
    unfold call at h
    cases h
    exact ⟨fun hq => absurd hq (by simp), fun _ => ⟨[Phase.processProposal], rfl, by simp⟩⟩
  | revertProposal p =>
    unfold call at h
    cases h
    exact ⟨fun hq => absurd hq (by simp), fun _ => ⟨[Phase.revertProposal], rfl, by simp⟩⟩
  | commit p =>
    unfold call at h
    cases h
    exact ⟨fun hq => absurd hq (by simp), fun _ => ⟨[Phase.commit], rfl, by simp⟩⟩
  | flush p =>
    unfold call at h
    cases h
    exact ⟨fun hq => absurd hq (by simp), fun _ => ⟨[], by simp, by simp⟩⟩
  | echo m =>
    unfold call at h
    cases h
    exact ⟨fun hq => absurd hq (by simp), fun _ => ⟨[], by simp, by simp⟩⟩
  | checkTx tx =>
    refine ⟨fun hq => absurd hq (by simp), fun _ => ?_⟩
    simp only [call] at h
    cases ht : checkTxTypeFromI32 tx.ty with
    | none => rw [ht] at h; cases h
    | some t =>
      rw [ht] at h
      cases t <;> cases h <;>
        first
        | exact ⟨[Phase.checkTx MempoolTxType.NewTransaction], rfl, by simp⟩
        | exact ⟨[Phase.checkTx MempoolTxType.RecheckTransaction], rfl, by simp⟩
  | listSnapshots p =>
    unfold call at h
    cases h
    exact ⟨fun hq => absurd hq (by simp), fun _ => ⟨[], by simp, by simp⟩⟩
  | offerSnapshot p =>
    unfold call at h
    cases h
    exact ⟨fun hq => absurd hq (by simp), fun _ => ⟨[], by simp, by simp⟩⟩
  | loadSnapshotChunk p =>
    unfold call at h
    cases h
    exact ⟨fun hq => absurd hq (by simp), fun _ => ⟨[], by simp, by simp⟩⟩
  | applySnapshotChunk p =>
    unfold call at h
    cases h
    exact ⟨fun hq => absurd hq (by simp), fun _ => ⟨[], by simp, by simp⟩⟩

theorem call_load_then_apply_c2_witness :
    ∃ s' resp, call ⟨0, [], ∅, []⟩ (Request.finalizeBlock 5) = some (s', resp) ∧
      s'.log = (⟨0, [], ∅, []⟩ : Shell).log ++
        [Phase.loadProposals, Phase.finalizeBlock] :=
  ⟨_, _, rfl,
    (call_load_then_apply_c2 ⟨0, [], ∅, []⟩ (Request.finalizeBlock 5) _ _ rfl).1 ⟨5, rfl⟩⟩

/-- C3: every request of the snapshot family receives `Ok` with the
structurally-default payload of the matching response variant, leaves the
shell untouched, and never produces an error or a panic, whatever the
request's contents. -/
theorem call_snapshot_default_c3 (s : Shell) (p : Nat) :
    call s (Request.listSnapshots p) =
      some (s, Except.ok (Response.listSnapshots 0)) ∧
    call s (Request.offerSnapshot p) =
      some (s, Except.ok (Response.offerSnapshot 0)) ∧
    call s (Request.loadSnapshotChunk p) =
      some (s, Except.ok (Response.loadSnapshotChunk 0)) ∧
    call s (Request.applySnapshotChunk p) =
      some (s, Except.ok (Response.applySnapshotChunk 0)) :=
  ⟨rfl, rfl, rfl, rfl⟩

/-- C8: a `CheckTx` whose numeric type field is not a recognised
`CheckTxType` discriminant makes `call` panic (`none`) rather than return a
typed error or response; type `0` (`New`) reaches `mempool_validate` as
`NewTransaction` and type `1` (`Recheck`) as `RecheckTransaction`. -/
theorem call_checkTx_c8 (s : Shell) (tx : CheckTxReq) :
    (checkTxTypeFromI32 tx.ty = none → call s (Request.checkTx tx) = none) ∧
    (tx.ty = 0 → call s (Request.checkTx tx) =
      some (runHandler s (Phase.checkTx MempoolTxType.NewTransaction),
        Except.ok (Response.checkTx 0))) ∧
    (tx.ty = 1 → call s (Request.checkTx tx) =
      some (runHandler s (Phase.checkTx MempoolTxType.RecheckTransaction),
        Except.ok (Response.checkTx 0))) := by
  refine ⟨fun h => ?_, fun h => ?_, fun h => ?_⟩
  · simp only [call, h]
  · simp [call, checkTxTypeFromI32, h]
  · simp [call, checkTxTypeFromI32, h]

theorem call_checkTx_c8_witness :
    call ⟨0, [], ∅, []⟩ (Request.checkTx ⟨[], 7⟩) = none ∧
    call ⟨0, [], ∅, []⟩ (Request.checkTx ⟨[], 0⟩) =
      some (runHandler ⟨0, [], ∅, []⟩ (Phase.checkTx MempoolTxType.NewTransaction),
        Except.ok (Response.checkTx 0)) ∧
    call ⟨0, [], ∅, []⟩ (Request.checkTx ⟨[], 1⟩) =
      some (runHandler ⟨0, [], ∅, []⟩ (Phase.checkTx MempoolTxType.RecheckTransaction),
        Except.ok (Response.checkTx 0)) :=
  ⟨(call_checkTx_c8 ⟨0, [], ∅, []⟩ ⟨[], 7⟩).1 (by decide),
   (call_checkTx_c8 ⟨0, [], ∅, []⟩ ⟨[], 0⟩).2.1 rfl,
   (call_checkTx_c8 ⟨0, [], ∅, []⟩ ⟨[], 1⟩).2.2 rfl⟩

/-! ## `run_abci`: per-lane middleware stacks

`run_abci` splits the ABCI service into consensus, mempool, snapshot and
info components and wraps each in a `tower` middleware stack.  The stacks
are embedded structurally (`ServiceBuilder` layers applied outside-in), and
the lane policy is read off the structure. -/

/-- A `tower` middleware stack over the base (split) service component. -/
inductive TowerStack where
  | base
  | loadShed (inner : TowerStack)
  | buffered (depth : Nat) (inner : TowerStack)
  | rateLimited (num : Nat) (perSeconds : Nat) (inner : TowerStack)
deriving DecidableEq

/-- Consensus lane: handed to the server bare (`.consensus(consensus)`). -/
def consensusLane : TowerStack := TowerStack.base

/-- Snapshot lane: handed to the server bare (`.snapshot(snapshot)`). -/
def snapshotLane : TowerStack := TowerStack.base

/-- Mempool lane: `ServiceBuilder::new().load_shed().buffer(1024)`. -/
def mempoolLane : TowerStack :=
  TowerStack.loadShed (TowerStack.buffered 1024 TowerStack.base)

/-- Info lane:
`ServiceBuilder::new().load_shed().buffer(100).rate_limit(50, 1s)`. -/
def infoLane : TowerStack :=
  TowerStack.loadShed (TowerStack.buffered 100
    (TowerStack.rateLimited 50 1 TowerStack.base))

/-- Does the stack contain a load-shedding layer? -/
def TowerStack.sheds : TowerStack → Bool
  | TowerStack.base => false
  | TowerStack.loadShed _ => true
  | TowerStack.buffered _ inner => inner.sheds
  | TowerStack.rateLimited _ _ inner => inner.sheds

/-- The bounded-buffer depth of the stack, if any. -/
def TowerStack.bufferDepth : TowerStack → Option Nat
  | TowerStack.base => none
  | TowerStack.loadShed inner => inner.bufferDepth
  | TowerStack.buffered d _ => some d
  | TowerStack.rateLimited _ _ inner => inner.bufferDepth

/-- The rate limit `(requests, per seconds)` of the stack, if any. -/
def TowerStack.rateLimitOf : TowerStack → Option (Nat × Nat)
  | TowerStack.base => none
  | TowerStack.loadShed inner => inner.rateLimitOf
  | TowerStack.buffered _ inner => inner.rateLimitOf
  | TowerStack.rateLimited n p _ => some (n, p)

/-- C4: the ABCI server built by `run_abci` applies load shedding with a
1024-deep bounded buffer to the mempool lane, load shedding with a 100-deep
buffer plus a 50-requests-per-second rate limit to the info lane, and no
shedding, buffering or rate-limiting at all to the consensus lane. -/
theorem run_abci_lanes_c4 :
    mempoolLane.sheds = true ∧
    mempoolLane.bufferDepth = some 1024 ∧
    mempoolLane.rateLimitOf = none ∧
    infoLane.sheds = true ∧
    infoLane.bufferDepth = some 100 ∧
    infoLane.rateLimitOf = some (50, 1) ∧
    consensusLane.sheds = false ∧
    consensusLane.bufferDepth = none ∧
    consensusLane.rateLimitOf = none :=
  ⟨rfl, rfl, rfl, rfl, rfl, rfl, rfl, rfl, rfl⟩

/-! ## `run_aux`: shutdown outcome handling

After `wait_for_abort`, `run_aux` joins every managed task and inspects the
aggregate result.  `childTerminated` is the value of
`spawner.wait_for_abort().await.child_terminated()`. -/

/-- Outcome of `tokio::try_join!` over the managed tasks: either every task
joined (carrying the `Result`s returned by the Tendermint and ABCI tasks),
or some join itself failed (with its cancellation flag). -/
inductive JoinOutcome where
  | joined (tendermintRes : Except String Unit) (abciRes : Except String Unit)
  | joinFailed (cancelled : Bool) (msg : String)

/-- The error messages `run_aux` emits after joining, transcribed from the
`match res` block: task errors are reported only when the shutdown was
caused by a child task terminating, and join failures are reported unless
they are cancellations. -/
def runAuxErrorLogs (childTerminated : Bool) : JoinOutcome → List String
  | JoinOutcome.joined tmRes abciRes =>
    if childTerminated then
      (match tmRes with
       | Except.error e => ["Tendermint error: " ++ e]
       | Except.ok _ => []) ++
      (match abciRes with
       | Except.error e => ["ABCI error: " ++ e]
       | Except.ok _ => [])
    else []
  | JoinOutcome.joinFailed cancelled msg =>
    if cancelled then [] else ["Ledger error: " ++ msg]

/-- C5: when shutdown was triggered by a child task terminating
(`child_terminated = true`), every error returned by the Tendermint and ABCI
tasks is logged; when the shutdown was an external interrupt
(`child_terminated = false`), those same task errors produce no log at
all. -/
theorem run_aux_logging_c5 (tmRes abciRes : Except String Unit) :
    runAuxErrorLogs false (JoinOutcome.joined tmRes abciRes) = [] ∧
    (∀ e, tmRes = Except.error e →
      ("Tendermint error: " ++ e) ∈
        runAuxErrorLogs true (JoinOutcome.joined tmRes abciRes)) ∧
    (∀ e, abciRes = Except.error e →
      ("ABCI error: " ++ e) ∈
        runAuxErrorLogs true (JoinOutcome.joined tmRes abciRes)) := by
  refine ⟨rfl, fun e he => ?_, fun e he => ?_⟩
  · subst he
    cases abciRes <;> simp [runAuxErrorLogs]
  · subst he
    cases tmRes <;> simp [runAuxErrorLogs]

theorem run_aux_logging_c5_witness :
    runAuxErrorLogs false
      (JoinOutcome.joined (Except.error "boom") (Except.ok ())) = [] ∧
    ("Tendermint error: " ++ "boom") ∈
      runAuxErrorLogs true
        (JoinOutcome.joined (Except.error "boom") (Except.ok ())) :=
  ⟨(run_aux_logging_c5 (Except.error "boom") (Except.ok ())).1,
   (run_aux_logging_c5 (Except.error "boom") (Except.ok ())).2.1 "boom" rfl⟩

/-! ## Task spawning: broadcaster and Ethereum oracle -/

/-- `config.tendermint.tendermint_mode`. -/
inductive TendermintMode where
  | Validator
  | Full
  | Seed
deriving DecidableEq

/-- Descriptor of a task handle produced during startup: a named abortable
task registered with the supervisor (with or without a cleanup), a plain
runtime task, or the dummy task. -/
inductive TaskHandle where
  | abortableTask (nm : List Char) (hasCleanup : Bool)
  | plainTask
  | dummyTask
deriving DecidableEq

/-- Does the handle resolve instantly, performing no work?  Only the dummy
task (`spawn_dummy_task`, a `std::future::ready`) does. -/
def TaskHandle.resolvesImmediately : TaskHandle → Bool
  | TaskHandle.dummyTask => true
  | _ => false

/-- `spawn_dummy_task`: a task that resolves instantly. -/
def spawnDummyTask : TaskHandle := TaskHandle.dummyTask

/-- The broadcaster slot filled by `start_abci_broadcaster_shell`: a
supervised \"Broadcaster\" task with an abort-channel cleanup when the
tendermint mode matches `Validator`, the dummy task otherwise. -/
def broadcasterTask (mode : TendermintMode) : TaskHandle :=
  match mode with
  | TendermintMode.Validator =>
    TaskHandle.abortableTask ['B', 'r', 'o', 'a', 'd', 'c', 'a', 's', 't', 'e', 'r'] true
  | _ => spawnDummyTask

/-- C6: the Broadcaster task (with its abort-channel cleanup) is spawned iff
the node's tendermint mode is `Validator`; in every other mode the
broadcaster slot holds the dummy task, which completes immediately and
performs no work. -/
theorem broadcaster_validator_only_c6 (m : TendermintMode) :
    (broadcasterTask m =
      TaskHandle.abortableTask
        ['B', 'r', 'o', 'a', 'd', 'c', 'a', 's', 't', 'e', 'r'] true ↔
      m = TendermintMode.Validator) ∧
    (m ≠ TendermintMode.Validator →
      broadcasterTask m = spawnDummyTask ∧
      (broadcasterTask m).resolvesImmediately = true) := by
  cases m <;>
    simp [broadcasterTask, spawnDummyTask, TaskHandle.resolvesImmediately]

theorem broadcaster_validator_only_c6_witness :
    broadcasterTask TendermintMode.Full = spawnDummyTask ∧
    (broadcasterTask TendermintMode.Full).resolvesImmediately = true :=
  (broadcaster_validator_only_c6 TendermintMode.Full).2 (by decide)

/-- `config.ethereum_bridge.mode`. -/
inductive EthBridgeMode where
  | Managed
  | Remote
  | EventsEndpoint
  | Off
deriving DecidableEq

/-- The channel ends the shell side receives for a live oracle
(`EthereumOracleHandle::new(eth_receiver, control_sender)`); opaque
tokens. -/
structure EthereumOracleHandle where
  eventsReceiver : Nat
  controlSender : Nat
deriving DecidableEq

/-- `EthereumOracleTask`, the result of `maybe_start_ethereum_oracle`. -/
inductive EthereumOracleTask where
  | NotEnabled (handle : TaskHandle)
  | Oracle (handle : TaskHandle) (ethOracle : EthereumOracleHandle)
  | EventsEndpoint (handle : TaskHandle) (ethOracle : EthereumOracleHandle)
deriving DecidableEq

/-- `maybe_start_ethereum_oracle`: mode dispatch transcribed from `mod.rs`
(the oracle/endpoint task bodies themselves are collaborators). -/
def maybeStartEthereumOracle (mode : EthBridgeMode) : EthereumOracleTask :=
  match mode with
  | EthBridgeMode.Managed | EthBridgeMode.Remote =>
    EthereumOracleTask.Oracle TaskHandle.plainTask ⟨0, 0⟩
  | EthBridgeMode.EventsEndpoint =>
    EthereumOracleTask.EventsEndpoint
      (TaskHandle.abortableTask
        ['E', 't', 'h', 'e', 'r', 'e', 'u', 'm', ' ',
         'E', 'v', 'e', 'n', 't', 's', ' ',
         'E', 'n', 'd', 'p', 'o', 'i', 'n', 't'] true) ⟨0, 0⟩
  | EthBridgeMode.Off => EthereumOracleTask.NotEnabled spawnDummyTask

/-- The destructuring `match` in `run_aux`: the oracle comms passed to the
shell (`None` when not enabled) and the handle joined at shutdown. -/
def runAuxOracleWiring : EthereumOracleTask → Option EthereumOracleHandle × TaskHandle
  | EthereumOracleTask.NotEnabled handle => (none, handle)
  | EthereumOracleTask.Oracle handle ethOracle => (some ethOracle, handle)
  | EthereumOracleTask.EventsEndpoint handle ethOracle => (some ethOracle, handle)

/-- C7: with the Ethereum bridge mode `Off`, `maybe_start_ethereum_oracle`
returns the `NotEnabled` variant holding the dummy task (which resolves
immediately), and `run_aux` passes `None` as the oracle comms to the shell,
so the dispatcher holds no live event or control channel. -/
theorem oracle_off_c7 :
    maybeStartEthereumOracle EthBridgeMode.Off =
      EthereumOracleTask.NotEnabled spawnDummyTask ∧
    (runAuxOracleWiring (maybeStartEthereumOracle EthBridgeMode.Off)).1 = none ∧
    ((runAuxOracleWiring
        (maybeStartEthereumOracle EthBridgeMode.Off)).2).resolvesImmediately = true :=
  ⟨rfl, rfl, rfl⟩

end Namada

namespace VpUser

/-! ## The user validity predicate (`wasm/vps/vp_user/src/lib.rs`)

`validate_tx`, `check_intent_transfers` and `check_intent` are embedded
from the source.  Their collaborators (borsh deserialisation of
`SignedTxData` and `IntentTransfers`, `key::ed25519::get`,
`verify_tx_signature`, intent signature checking, `intent::vp_exchange`,
key classification, and the pre/post storage reads) live outside the
provided sources and are supplied as an environment of total functions
(`unwrap_or_default` reads are total by construction).  Addresses, keys,
public keys and signatures are opaque tokens; `rust_decimal::Decimal` is
modelled as `Rat` (division by zero is unreachable because of the
short-circuited `buy_difference.change() <= 0` guard); `token::Amount` is a
`Nat` of micro units with `spend` as truncated subtraction.  `none` models
a panic. -/

abbrev Address := Nat
abbrev Pk := Nat
abbrev Sig := Nat
abbrev VpKey := Nat
abbrev Bytes := List Nat

/-- `SignedTxData`: an optional inner data payload plus a signature. -/
structure SignedTxData where
  data : Option Bytes
  sig : Sig

/-- The data of a `Signed<Exchange>` (the fields `check_intent` reads). -/
structure SignedExchange where
  tokenSell : Address
  rateMin : Rat
  tokenBuy : Address
  amountBuy : Nat
  maxSell : Nat

/-- A `Signed<FungibleTokenIntent>`, opaque to the embedded code. -/
abbrev SignedIntent := Nat

/-- `IntentTransfers`: the `exchanges` and `intents` maps, as lookup
functions. -/
structure IntentTransfers where
  exchanges : Address → Option SignedExchange
  intents : Address → Option SignedIntent

/-- The result of `KeyType::from(&key)`. -/
inductive KeyKind where
  | token (owner : Address)
  | invalidIntentSet (owner : Address)
  | unknown

/-- The collaborator functions `validate_tx` calls (all outside the
provided sources). -/
structure VpEnv where
  /-- `SignedTxData::try_from_slice`. -/
  parseSignedTxData : Bytes → Option SignedTxData
  /-- `key::ed25519::get`. -/
  getPk : Address → Option Pk
  /-- `verify_tx_signature`. -/
  verifyTxSignature : Pk → Sig → Bool
  /-- `IntentTransfers::try_from_slice`. -/
  parseIntentTransfers : Bytes → Option IntentTransfers
  /-- `intent.verify(&pk).is_ok()`. -/
  intentSigOk : Pk → SignedIntent → Bool
  /-- `intent::vp_exchange`. -/
  vpExchange : SignedExchange → Bool
  /-- `KeyType::from`, i.e. `is_any_token_balance_key` /
  `is_invalid_intent_key` classification. -/
  classifyKey : VpKey → KeyKind
  /-- `read_pre::<token::Amount>(key).unwrap_or_default()`. -/
  readPreAmount : VpKey → Nat
  /-- `read_post::<token::Amount>(key).unwrap_or_default()`. -/
  readPostAmount : VpKey → Nat
  /-- `read_pre::<Vec<Vec<u8>>>(key).unwrap_or_default()`. -/
  readPreSigSet : VpKey → List Bytes
  /-- `read_post::<Vec<Vec<u8>>>(key).unwrap_or_default()`. -/
  readPostSigSet : VpKey → List Bytes
  /-- `token::balance_key(token, owner)`. -/
  balanceKey : Address → Address → VpKey

/-- `check_intent`: signature, replay and fulfilment checks of a matched
exchange/intent pair. -/
def check_intent (env : VpEnv) (addr : Address) (exchange : SignedExchange)
    (intent : SignedIntent) : Bool :=
  match env.getPk addr with
  | none => false
  | some pk =>
    if !env.intentSigOk pk intent then false
    else if !env.vpExchange exchange then false
    else
      let tokenSellKey := env.balanceKey exchange.tokenSell addr
      let sellPre := env.readPreAmount tokenSellKey
      let sellPost := env.readPostAmount tokenSellKey
      let sellDifference := sellPre - sellPost
      let tokenBuyKey := env.balanceKey exchange.tokenBuy addr
      let buyPre := env.readPreAmount tokenBuyKey
      let buyPost := env.readPostAmount tokenBuyKey
      let buyDifference := buyPost - buyPre
      if (buyDifference : Int) ≤ 0 ∨
          (sellDifference : Rat) / (buyDifference : Rat) > exchange.rateMin ∨
          (exchange.maxSell : Int) < (sellDifference : Int)
      then false
      else true

/-- `check_intent_transfers`: `none` models the two panics on this path —
`tx.data.unwrap()` when the signed payload carries no inner data, and the
`.expect(..)` on a missing intent matching a present exchange. -/
def check_intent_transfers (env : VpEnv) (addr : Address) (txData : Bytes) :
    Option Bool :=
  match env.parseSignedTxData txData with
  | some tx =>
    match tx.data with
    | none => none
    | some d =>
      match env.parseIntentTransfers d with
      | some itx =>
        match itx.exchanges addr with
        | some exchange =>
          match itx.intents addr with
          | none => none
          | some intentData => some (check_intent env addr exchange intentData)
        | none => some false
      | none => some false
  | none => some false

/-- The per-key check of `validate_tx`'s `for` loop body. -/
def validateKey (env : VpEnv) (addr : Address) (validSig validIntent : Bool)
    (key : VpKey) : Bool :=
  match env.classifyKey key with
  | KeyKind.token owner =>
    if owner = addr then
      let pre := env.readPreAmount key
      let post := env.readPostAmount key
      let change : Int := (post : Int) - (pre : Int)
      (decide (change < 0) && (validSig || validIntent)) || decide (change > 0)
    else validSig
  | KeyKind.invalidIntentSet owner =>
    if owner = addr then
      decide ((env.readPreSigSet key).length + 1 = (env.readPostSigSet key).length)
    else validSig
  | KeyKind.unknown => validSig

/-- `validate_tx`: computes `valid_sig` and `valid_intent` up front (the
latter can panic, modelled as `none`), then checks every changed key; the
`for` loop with early `return false` is embedded as `List.all`. -/
def validate_tx (env : VpEnv) (txData : Bytes) (addr : Address)
    (keysChanged : List VpKey) (verifiers : List Address) : Option Bool :=
  let validSig :=
    match env.parseSignedTxData txData with
    | some tx =>
      match env.getPk addr with
      | none => false
      | some pk => env.verifyTxSignature pk tx.sig
    | none => false
  match check_intent_transfers env addr txData with
  | none => none
  | some validIntent =>
    some (keysChanged.all (fun key => validateKey env addr validSig validIntent key))

/-- A concrete environment whose deserialiser behaves like borsh on the
encoding of `SignedTxData { data: None, .. }` (leading `Option` tag byte
`0`), a well-formed input of the real collaborator. -/
def dataNoneEnv : VpEnv where
  parseSignedTxData := fun _ => some { data := none, sig := 0 }
  getPk := fun _ => none
  verifyTxSignature := fun _ _ => false
  parseIntentTransfers := fun _ => none
  intentSigOk := fun _ _ => false
  vpExchange := fun _ => false
  classifyKey := fun _ => KeyKind.unknown
  readPreAmount := fun _ => 0
  readPostAmount := fun _ => 0
  readPreSigSet := fun _ => []
  readPostSigSet := fun _ => []
  balanceKey := fun _ _ => 0

/-- C10 counterexample: with an empty changed-key set, `validate_tx` does
not return `true` for every `tx_data` — a payload deserialising to
`SignedTxData` with `data = None` hits `tx.data.unwrap()` inside the
up-front `check_intent_transfers` and panics instead. -/
theorem validate_tx_noop_counterexample :
    validate_tx dataNoneEnv [0] 0 [] [] = none ∧
    validate_tx dataNoneEnv [0] 0 [] [] ≠ some true :=
  ⟨rfl, fun h => by cases h⟩

/-- C10 (amended): for every environment, `tx_data`, address and verifier
set such that the up-front intent pre-computation does not panic (the
signed payload does not lack its inner data, and no exchange is present
without its matching intent), `validate_tx` with an empty changed-key set
returns `true` — regardless of signature or intent validity. -/
theorem validate_tx_noop_c10 (env : VpEnv) (txData : Bytes) (addr : Address)
    (verifiers : List Address)
    (h : check_intent_transfers env addr txData ≠ none) :
    validate_tx env txData addr [] verifiers = some true := by
  unfold validate_tx
  cases hc : check_intent_transfers env addr txData with
  | none => exact absurd hc h
  | some b => rfl

/-- An environment on which the signed-data parse fails (e.g. the empty
byte string, the input of the source's own `test_no_op_transaction`). -/
def parseFailEnv : VpEnv where
  parseSignedTxData := fun _ => none
  getPk := fun _ => none
  verifyTxSignature := fun _ _ => false
  parseIntentTransfers := fun _ => none
  intentSigOk := fun _ _ => false
  vpExchange := fun _ => false
  classifyKey := fun _ => KeyKind.unknown
  readPreAmount := fun _ => 0
  readPostAmount := fun _ => 0
  readPreSigSet := fun _ => []
  readPostSigSet := fun _ => []
  balanceKey := fun _ _ => 0

theorem validate_tx_noop_c10_witness :
    validate_tx parseFailEnv [] 0 [] [] = some true :=
  validate_tx_noop_c10 parseFailEnv [] 0 [] (fun h => by cases h)

end VpUser
